import Mathlib

/-!
Verification of the `process-cache` job cache lifecycle controller
(`src/process/job.ts`) and the `ProcessCache` model definition
(`src/models/process_cache.ts`).

The controller is embedded shallowly: the mutable fields of the `Job`
class become a `JobState` record, each asynchronous collaborator call
becomes an explicit `CallResult` input, and every method of the class
becomes a pure function from the current state (and the collaborator
results it awaits) to the next state together with the outcome of the
promise the method returns.  A promise in the source either resolves,
rejects, or — because `load`, `syncCache` and `createCache` wrap their
body in `new Promise` with no `reject` and no `try`/`catch` — never
settles when an awaited collaborator throws; the three possibilities are
the constructors of `PromiseOutcome`.
-/

/-- `Process` model: only the storage-assigned id and the name matter here. -/
structure ProcessModel where
  id : Nat
  name : String
deriving DecidableEq, Repr

/-- `ProcessJob` model: storage-assigned id, owning process id, and name. -/
structure ProcessJobModel where
  id : Nat
  process : Nat
  name : String
deriving DecidableEq, Repr

/-- `ProcessCache` model (src/models/process_cache.ts): one cache record. -/
structure ProcessCacheModel where
  id : Nat
  process : Nat
  job : Nat
  machine : String
  key : String
  value : String
  createdAt : Int
  updatedAt : Int
deriving DecidableEq, Repr

/-- `ProcessJobLog` model: a durable log entry produced by `createLog`. -/
structure ProcessJobLogModel where
  id : Nat
  process : Nat
  job : Nat
  message : String
deriving DecidableEq, Repr

/-- `ProcessLogTypes` (src/core/process_log_types referenced by job.ts);
`Generic` is the default argument of `createLog`. -/
inductive ProcessLogTypes where
  | Generic
  | Error
deriving DecidableEq, Repr

/-- Errors of the spec's taxonomy that an operation could reject with. -/
inductive JobError where
  | invalidState
  | storeError
deriving DecidableEq, Repr

/-- How the promise returned by a method settles: it resolves with a value,
rejects with an error, or never settles at all (the fate of the wrapper
promises in the source when an awaited call throws, since their executors
have no `reject` parameter and no `catch`). -/
inductive PromiseOutcome (α : Type) where
  | resolved : α → PromiseOutcome α
  | rejected : JobError → PromiseOutcome α
  | pending : PromiseOutcome α
deriving DecidableEq, Repr

/-- Result of awaiting one collaborator call: a value, or a thrown error. -/
inductive CallResult (α : Type) where
  | ok : α → CallResult α
  | err : CallResult α
deriving DecidableEq, Repr

/-! ### The in-memory index

`cacheResults` (`{ [cacheId: number]: ProcessCacheModel }`) and
`cacheTree` (`{ [cacheKey: string]: ProcessCacheModel[] }`) are plain
JavaScript objects mutated by property assignment.  They are embedded as
association lists where an assignment conses a new binding in front of
any previous one and lookup returns the most recent binding, which is
observationally the same as in-place mutation. -/

/-- The id map `cacheResults`. -/
def IdMap : Type := List (Nat × ProcessCacheModel)

/-- The key-bucket map `cacheTree`. -/
def TreeMap : Type := List (String × List ProcessCacheModel)

instance : DecidableEq IdMap := by unfold IdMap; infer_instance
instance : DecidableEq TreeMap := by unfold TreeMap; infer_instance

/-- `this.cacheResults[i] = r` -/
def idPut (m : IdMap) (i : Nat) (r : ProcessCacheModel) : IdMap :=
  (i, r) :: m

/-- `this.cacheResults[i]` (`undefined` becomes `none`). -/
def idGet (m : IdMap) (i : Nat) : Option ProcessCacheModel :=
  List.lookup i m

/-- `this.cacheTree[k]` (`undefined` becomes `none`). -/
def treeGet (t : TreeMap) (k : String) : Option (List ProcessCacheModel) :=
  List.lookup k t

/-- The body of the sync/create loop on `cacheTree`:
`if (typeof this.cacheTree[k] == 'undefined') this.cacheTree[k] = [];`
`this.cacheTree[k].push(r);` -/
def treePush (t : TreeMap) (k : String) (r : ProcessCacheModel) : TreeMap :=
  match treeGet t k with
  | none => (k, [r]) :: t
  | some b => (k, b ++ [r]) :: t

/-- One iteration of the loop shared by `syncCache` and `createCache`:
insert into the id map and append to the key bucket. -/
def syncStep (acc : IdMap × TreeMap) (r : ProcessCacheModel) : IdMap × TreeMap :=
  (idPut acc.1 r.id r, treePush acc.2 r.key r)

/-- The index `syncCache` builds from the fetched record list, starting
from the cleared (`{}`) maps. -/
def buildIndex (l : List ProcessCacheModel) : IdMap × TreeMap :=
  l.foldl syncStep ([], [])

/-! ### The controller state and its operations -/

/-- The mutable fields of the `Job` class instance. -/
structure JobState where
  processName : String
  jobName : String
  machineName : String
  process : Option ProcessModel
  processJob : Option ProcessJobModel
  cacheResults : IdMap
  cacheTree : TreeMap
  loaded : Bool
deriving DecidableEq

namespace Job

/-- The constructor: identities null, maps empty, not loaded. -/
def mkJob (processName jobName machineName : String) : JobState :=
  { processName := processName
    jobName := jobName
    machineName := machineName
    process := none
    processJob := none
    cacheResults := []
    cacheTree := []
    loaded := false }

/-- The collaborator calls `load()` awaits, in source order.  Each field
is the result the corresponding `await` would observe. -/
structure LoadEnv where
  pmLoad : CallResult Unit
  machineLoad : CallResult Unit
  createProcess : CallResult ProcessModel
  createJob : CallResult ProcessJobModel
  hasCache : CallResult Bool
  fullCache : CallResult (List ProcessCacheModel)
  onCacheExist : CallResult Unit
  onCacheEmpty : CallResult Unit

/-- Observable events of one `load()` call, in the order they occur. -/
inductive LoadEvent where
  | resolvedProcess
  | resolvedJob
  | checkedCache
  | synced
  | hookExist
  | hookEmpty
deriving DecidableEq, Repr

/-- `Job.load`.  The guard `if (this.loaded === false)` short-circuits a
loaded instance.  Otherwise the collaborators run in source order; the
state assignments made before a throwing `await` survive, and a throw
leaves the promise pending because the executor has no `reject` and no
`catch`.  The hook events are recorded at invocation. -/
def load (s : JobState) (env : LoadEnv) :
    JobState × PromiseOutcome Unit × List LoadEvent :=
  if s.loaded then (s, .resolved (), [])
  else
    match env.pmLoad with
    | .err => (s, .pending, [])
    | .ok _ =>
      match env.machineLoad with
      | .err => (s, .pending, [])
      | .ok _ =>
        match env.createProcess with
        | .err => (s, .pending, [])
        | .ok p =>
          let s1 := { s with process := some p }
          match env.createJob with
          | .err => (s1, .pending, [.resolvedProcess])
          | .ok pj =>
            let s2 := { s1 with processJob := some pj }
            match env.hasCache with
            | .err => (s2, .pending, [.resolvedProcess, .resolvedJob])
            | .ok true =>
              let s3 := { s2 with cacheResults := [], cacheTree := [] }
              match env.fullCache with
              | .err =>
                (s3, .pending, [.resolvedProcess, .resolvedJob, .checkedCache])
              | .ok l =>
                let idx := buildIndex l
                let s4 := { s3 with cacheResults := idx.1, cacheTree := idx.2 }
                match env.onCacheExist with
                | .err =>
                  (s4, .pending,
                    [.resolvedProcess, .resolvedJob, .checkedCache, .synced,
                      .hookExist])
                | .ok _ =>
                  ({ s4 with loaded := true }, .resolved (),
                    [.resolvedProcess, .resolvedJob, .checkedCache, .synced,
                      .hookExist])
            | .ok false =>
              match env.onCacheEmpty with
              | .err =>
                (s2, .pending,
                  [.resolvedProcess, .resolvedJob, .checkedCache, .hookEmpty])
              | .ok _ =>
                ({ s2 with loaded := true }, .resolved (),
                  [.resolvedProcess, .resolvedJob, .checkedCache, .hookEmpty])

/-- `Job.syncCache`: clears both maps, then awaits `getFullCache()`,
then rebuilds the index.  If the fetch throws, the maps stay cleared and
the wrapper promise never settles. -/
def syncCache (s : JobState) (fetch : CallResult (List ProcessCacheModel)) :
    JobState × PromiseOutcome Unit :=
  let s0 := { s with cacheResults := [], cacheTree := [] }
  match fetch with
  | .err => (s0, .pending)
  | .ok l =>
    let idx := buildIndex l
    ({ s0 with cacheResults := idx.1, cacheTree := idx.2 }, .resolved ())

/-- `Job.createCache`: awaits `machine.createCache`, then inserts the
returned record into both maps and resolves with it.  A storage failure
means the `then` callback never runs: no mutation, and the wrapper
promise (which has no reject path) never settles. -/
def createCache (s : JobState) (insert : CallResult ProcessCacheModel) :
    JobState × PromiseOutcome ProcessCacheModel :=
  match insert with
  | .err => (s, .pending)
  | .ok r =>
    ({ s with
        cacheResults := idPut s.cacheResults r.id r
        cacheTree := treePush s.cacheTree r.key r },
      .resolved r)

/-- `Job.createLog`: an unconditional delegation to
`machine.createLog(this.process as ProcessModel, this.processJob as
ProcessJobModel, message, logType)`; the `as` casts erase nothing at
runtime, so the possibly-null identities flow through unchecked. -/
def createLog (s : JobState)
    (machineCreateLog : Option ProcessModel → Option ProcessJobModel →
      String → ProcessLogTypes → PromiseOutcome ProcessJobLogModel)
    (message : String) (logType : ProcessLogTypes) :
    PromiseOutcome ProcessJobLogModel :=
  machineCreateLog s.process s.processJob message logType

end Job

/-! ### The storage collaborator

The `Machine` class and the Sequelize-backed store that
`machine.createCache` / `machine.getCache` / `machine.hasCache` /
`machine.getFullCache` talk to are not part of the two source files, so
they are modelled from the spec (§6 external interfaces, §3 data
model). -/

/-- Modelled from the spec: the durable cache store behind the `Machine`
collaborator, which is not under src/.  `records` is the ordered table
content; `nextId` is the `autoIncrement` primary-key counter declared in
`ProcessCacheAttributeDefinition`. -/
structure CacheStore where
  nextId : Nat
  records : List ProcessCacheModel
deriving DecidableEq

namespace CacheStore

/-- Modelled from the spec: `CacheStore.insert(process, job, machine,
key, value) -> CacheRecord`, id assigned by the store's auto-increment
counter, record appended to the table (append-only lifecycle, §3). -/
def insert (st : CacheStore) (proc job : Nat) (machine key value : String) :
    CacheStore × ProcessCacheModel :=
  let r : ProcessCacheModel :=
    { id := st.nextId, process := proc, job := job, machine := machine,
      key := key, value := value, createdAt := 0, updatedAt := 0 }
  ({ nextId := st.nextId + 1, records := st.records ++ [r] }, r)

/-- Modelled from the spec: `CacheStore.query(process, job, key)` scoped
by the machine identity (§3: machine partitions the cache), returning
matches in table order. -/
def query (st : CacheStore) (proc job : Nat) (machine key : String) :
    List ProcessCacheModel :=
  st.records.filter fun r =>
    r.process == proc && r.job == job && r.machine == machine && r.key == key

/-- Modelled from the spec: `CacheStore.fetchAll(process, job)` scoped
by machine, the primitive behind `getFullCache`. -/
def fetchAll (st : CacheStore) (proc job : Nat) (machine : String) :
    List ProcessCacheModel :=
  st.records.filter fun r =>
    r.process == proc && r.job == job && r.machine == machine

/-- Modelled from the spec: `CacheStore.existsKey(process, job, key)`. -/
def existsKey (st : CacheStore) (proc job : Nat) (machine key : String) : Bool :=
  !(st.query proc job machine key).isEmpty

/-- Modelled from the spec: `CacheStore.exists(process, job)`. -/
def existsAny (st : CacheStore) (proc job : Nat) (machine : String) : Bool :=
  !(st.fetchAll proc job machine).isEmpty

end CacheStore

namespace Job

/-- The process id the `this.process as ProcessModel` cast hands to the
collaborator: the resolved id, or — when the field is still null — the
spec's `0` sentinel ("never a valid identity", §3). -/
def procId (p : Option ProcessModel) : Nat :=
  match p with
  | some pm => pm.id
  | none => 0

/-- The job id handed over by the `this.processJob as ProcessJobModel`
cast, with the same `0` sentinel for null. -/
def jobId (j : Option ProcessJobModel) : Nat :=
  match j with
  | some pj => pj.id
  | none => 0

/-- `Job.getCache(key)`: returns `machine.getCache(this.process,
this.processJob, key)` directly — a delegation to the store, with no
guard on `this.loaded`. -/
def getCache (s : JobState) (st : CacheStore) (key : String) :
    PromiseOutcome (List ProcessCacheModel) :=
  .resolved (st.query (procId s.process) (jobId s.processJob) s.machineName key)

/-- `Job.hasCacheKey(key)`: delegation to the store, no guard. -/
def hasCacheKey (s : JobState) (st : CacheStore) (key : String) :
    PromiseOutcome Bool :=
  .resolved (st.existsKey (procId s.process) (jobId s.processJob) s.machineName key)

/-- `Job.hasCache()`: delegation to the store, no guard. -/
def hasCache (s : JobState) (st : CacheStore) : PromiseOutcome Bool :=
  .resolved (st.existsAny (procId s.process) (jobId s.processJob) s.machineName)

/-- `Job.getFullCache()`: delegation to the store, no guard. -/
def getFullCache (s : JobState) (st : CacheStore) :
    PromiseOutcome (List ProcessCacheModel) :=
  .resolved (st.fetchAll (procId s.process) (jobId s.processJob) s.machineName)

/-- States reachable from a freshly constructed instance by the
state-mutating operations (the read operations `getCache`,
`hasCacheKey`, `hasCache`, `getFullCache` and `createLog` return
outcomes without touching the fields). -/
inductive Reachable : JobState → Prop where
  | constructed (processName jobName machineName : String) :
      Reachable (mkJob processName jobName machineName)
  | loadStep {s : JobState} (env : LoadEnv) :
      Reachable s → Reachable (load s env).1
  | syncStep {s : JobState} (fetch : CallResult (List ProcessCacheModel)) :
      Reachable s → Reachable (syncCache s fetch).1
  | createStep {s : JobState} (insert : CallResult ProcessCacheModel) :
      Reachable s → Reachable (createCache s insert).1

end Job

/-! ### The `ProcessCache` Sequelize model (src/models/process_cache.ts) -/

/-- The Sequelize column types used by `ProcessCacheAttributeDefinition`. -/
inductive SeqDataType where
  | INTEGER
  | STRING
  | TEXT
deriving DecidableEq, Repr

/-- A column value: the model stores integers and strings. -/
inductive AttrValue where
  | int : Int → AttrValue
  | str : String → AttrValue
deriving DecidableEq, Repr

/-- One attribute entry of a Sequelize model definition. -/
structure AttributeSpec where
  type : SeqDataType
  primaryKey : Bool := false
  allowNull : Bool
  autoIncrement : Bool := false
  defaultValue : Option AttrValue := none
deriving DecidableEq, Repr

/-- `ProcessCacheAttributeDefinition` from src/models/process_cache.ts,
one field per column. -/
structure ProcessCacheAttributes where
  id : AttributeSpec
  process : AttributeSpec
  job : AttributeSpec
  machine : AttributeSpec
  key : AttributeSpec
  value : AttributeSpec
  createdAt : AttributeSpec
  updatedAt : AttributeSpec
deriving DecidableEq, Repr

def ProcessCacheAttributeDefinition : ProcessCacheAttributes :=
  { id := { type := .INTEGER, primaryKey := true, allowNull := false,
            autoIncrement := true }
    process := { type := .INTEGER, allowNull := false,
                 defaultValue := some (.int 0) }
    job := { type := .INTEGER, allowNull := false,
             defaultValue := some (.int 0) }
    machine := { type := .STRING, allowNull := false,
                 defaultValue := some (.str "") }
    key := { type := .STRING, allowNull := false,
             defaultValue := some (.str "") }
    value := { type := .TEXT, allowNull := false }
    createdAt := { type := .INTEGER, allowNull := false,
                   defaultValue := some (.int 0) }
    updatedAt := { type := .INTEGER, allowNull := false,
                   defaultValue := some (.int 0) } }

/-- The model-level options `ProcessCacheFactory.init` passes to
`ProcessCache.init`: `timestamps: false` switches Sequelize's automatic
`createdAt`/`updatedAt` stamping off. -/
structure ModelInitOptions where
  modelName : String
  tableName : String
  timestamps : Bool
deriving DecidableEq, Repr

def processCacheInitOptions : ModelInitOptions :=
  { modelName := "processCache", tableName := "process_cache",
    timestamps := false }

/-- Modelled from the spec: the Sequelize insert semantics for one
column (the library is not part of this repository).  A value supplied
by the caller is stored as given; an unsupplied timestamp column is
auto-stamped with the current time only when the model was initialized
with `timestamps := true`, and otherwise — as for every other unsupplied
column — falls back to the column's declared `defaultValue`. -/
def storedColumnValue (opts : ModelInitOptions) (spec : AttributeSpec)
    (isTimestampColumn : Bool) (now : Int) (supplied : Option AttrValue) :
    Option AttrValue :=
  match supplied with
  | some v => some v
  | none =>
    if isTimestampColumn && opts.timestamps then some (.int now)
    else spec.defaultValue

/-! ### Concrete scenario instances (spec §8) -/

/-- One cache record of the spec's scenario. -/
def sampleRecord : ProcessCacheModel :=
  { id := 1, process := 1, job := 1, machine := "ci-1",
    key := "artifact-hash", value := "abc123", createdAt := 0, updatedAt := 0 }

/-- Collaborator results for a successful `load()` over a non-empty cache. -/
def sampleEnvExist : Job.LoadEnv :=
  { pmLoad := .ok (), machineLoad := .ok (),
    createProcess := .ok { id := 1, name := "build" },
    createJob := .ok { id := 1, process := 1, name := "compile" },
    hasCache := .ok true, fullCache := .ok [sampleRecord],
    onCacheExist := .ok (), onCacheEmpty := .ok () }

/-- Collaborator results where `processManager.createJob` throws. -/
def failingJobEnv : Job.LoadEnv :=
  { pmLoad := .ok (), machineLoad := .ok (),
    createProcess := .ok { id := 1, name := "build" },
    createJob := .err,
    hasCache := .ok false, fullCache := .ok [],
    onCacheExist := .ok (), onCacheEmpty := .ok () }

/-- A logging collaborator that always succeeds, recording the identities
it was handed. -/
def sampleLogger : Option ProcessModel → Option ProcessJobModel → String →
    ProcessLogTypes → PromiseOutcome ProcessJobLogModel :=
  fun p j msg _ =>
    .resolved { id := 1, process := Job.procId p, job := Job.jobId j,
                message := msg }

/-- A store with no records and auto-increment counter at 1. -/
def emptyStore : CacheStore := { nextId := 1, records := [] }

/-- A freshly constructed controller instance. -/
def freshJob : JobState := Job.mkJob "build" "compile" "ci-1"

/-- A controller instance after a completed `load()`. -/
def loadedJob : JobState :=
  { freshJob with
      process := some { id := 1, name := "build" }
      processJob := some { id := 1, process := 1, name := "compile" }
      loaded := true }

/-! ### Helper lemmas about the index structure -/

/-- The records of `l` carrying key `k`, in list order. -/
def keyMatches (k : String) (l : List ProcessCacheModel) :
    List ProcessCacheModel :=
  l.filter fun r => r.key == k

theorem idGet_idPut (m : IdMap) (i j : Nat) (r : ProcessCacheModel) :
    idGet (idPut m i r) j = if j = i then some r else idGet m j := by
  simp only [idGet, idPut, List.lookup]
  by_cases h : j = i
  · simp [h]
  · simp [h, beq_false_of_ne h]

theorem treeGet_treePush_self (t : TreeMap) (k : String)
    (r : ProcessCacheModel) :
    treeGet (treePush t k r) k = some ((treeGet t k).getD [] ++ [r]) := by
  unfold treePush
  cases h : treeGet t k with
  | none => simp [treeGet, List.lookup, h]
  | some b => simp [treeGet, List.lookup, h]

theorem treeGet_treePush_other (t : TreeMap) (k k' : String)
    (r : ProcessCacheModel) (h : k' ≠ k) :
    treeGet (treePush t k r) k' = treeGet t k' := by
  unfold treePush
  cases treeGet t k with
  | none => simp [treeGet, List.lookup, beq_false_of_ne h]
  | some b => simp [treeGet, List.lookup, beq_false_of_ne h]

theorem buildIndex_append (l : List ProcessCacheModel)
    (r : ProcessCacheModel) :
    buildIndex (l ++ [r]) = syncStep (buildIndex l) r := by
  simp [buildIndex, List.foldl_append]

theorem keyMatches_append (k : String) (l : List ProcessCacheModel)
    (r : ProcessCacheModel) :
    keyMatches k (l ++ [r]) =
      keyMatches k l ++ (if r.key = k then [r] else []) := by
  by_cases h : r.key = k
  · simp [keyMatches, List.filter_append, h]
  · simp [keyMatches, List.filter_append, h]

/-- The key buckets `syncCache` builds: bucket `k` is exactly the fetched
records with key `k`, in fetch order, and exists only when nonempty. -/
theorem treeGet_buildIndex (l : List ProcessCacheModel) (k : String) :
    treeGet (buildIndex l).2 k =
      if keyMatches k l = [] then none else some (keyMatches k l) := by
  induction l using List.reverseRecOn with
  | nil => simp [buildIndex, treeGet, List.lookup, keyMatches]
  | append_singleton l r ih =>
    rw [buildIndex_append]
    show treeGet (treePush (buildIndex l).2 r.key r) k = _
    by_cases hk : k = r.key
    · subst hk
      rw [treeGet_treePush_self, keyMatches_append, ih]
      by_cases hm : keyMatches r.key l = []
      · simp [hm]
      · simp [hm]
    · rw [treeGet_treePush_other _ _ _ _ hk, keyMatches_append, ih]
      have hrk : ¬r.key = k := fun h => hk h.symm
      simp [hrk]

/-- The id map `syncCache` builds: when the fetched ids are distinct, it
holds exactly the fetched records, keyed by their ids. -/
theorem idGet_buildIndex (l : List ProcessCacheModel)
    (hnd : (l.map (fun r => r.id)).Nodup) (i : Nat) (r : ProcessCacheModel) :
    idGet (buildIndex l).1 i = some r ↔ r ∈ l ∧ r.id = i := by
  induction l using List.reverseRecOn with
  | nil => simp [buildIndex, idGet, List.lookup]
  | append_singleton l q ih =>
    rw [List.map_append, List.nodup_append] at hnd
    have hq : q.id ∉ l.map (fun r => r.id) := fun hmem => hnd.2.2 hmem (by simp)
    rw [buildIndex_append]
    show idGet (idPut (buildIndex l).1 q.id q) i = some r ↔ _
    rw [idGet_idPut]
    by_cases hi : i = q.id
    · subst hi
      rw [if_pos rfl]
      constructor
      · intro h
        have hqr : q = r := by injection h
        subst hqr
        exact ⟨by simp, rfl⟩
      · rintro ⟨hmem, hid⟩
        rcases List.mem_append.mp hmem with hl | hr
        · exact absurd (List.mem_map.mpr ⟨r, hl, hid⟩) hq
        · rw [List.mem_singleton] at hr
          rw [hr]
    · rw [if_neg hi, ih hnd.1]
      constructor
      · rintro ⟨hmem, hid⟩
        exact ⟨List.mem_append.mpr (Or.inl hmem), hid⟩
      · rintro ⟨hmem, hid⟩
        rcases List.mem_append.mp hmem with hl | hr
        · exact ⟨hl, hid⟩
        · rw [List.mem_singleton] at hr
          subst hr
          exact absurd hid.symm hi

/-! ### Claim theorems -/

/-- C1: during `load()` on an unloaded instance, exactly one existence
branch runs — with at least one record for the resolved (process, job),
a full cache sync runs and then `onCacheExist()` is invoked (and
`onCacheEmpty` is not), leaving the index equal to the record set; with
zero records, `onCacheEmpty()` is invoked (and `onCacheExist` is not)
and the in-memory index is not mutated. -/
theorem load_existence_branch (s : JobState) (env : Job.LoadEnv)
    (p : ProcessModel) (pj : ProcessJobModel) (l : List ProcessCacheModel)
    (hl : s.loaded = false)
    (h1 : env.pmLoad = .ok ()) (h2 : env.machineLoad = .ok ())
    (h3 : env.createProcess = .ok p) (h4 : env.createJob = .ok pj)
    (hf : env.fullCache = .ok l) (hh : env.hasCache = .ok (!l.isEmpty))
    (he : env.onCacheExist = .ok ()) (hm : env.onCacheEmpty = .ok ()) :
    (l ≠ [] →
      Job.load s env =
        ({ s with
            process := some p
            processJob := some pj
            cacheResults := (buildIndex l).1
            cacheTree := (buildIndex l).2
            loaded := true }, .resolved (),
          [.resolvedProcess, .resolvedJob, .checkedCache, .synced,
            .hookExist]))
    ∧ (l = [] →
      Job.load s env =
        ({ s with process := some p, processJob := some pj, loaded := true },
          .resolved (),
          [.resolvedProcess, .resolvedJob, .checkedCache, .hookEmpty])) := by
  constructor
  · intro hne
    have hbe : l.isEmpty = false := by
      cases l with
      | nil => exact absurd rfl hne
      | cons a t => rfl
    simp [Job.load, hl, h1, h2, h3, h4, hh, hf, he, hbe]
  · intro hnil
    subst hnil
    simp [Job.load, hl, h1, h2, h3, h4, hh, hm]

theorem load_existence_branch_witness :
    Job.load freshJob sampleEnvExist =
      ({ freshJob with
          process := some { id := 1, name := "build" }
          processJob := some { id := 1, process := 1, name := "compile" }
          cacheResults := (buildIndex [sampleRecord]).1
          cacheTree := (buildIndex [sampleRecord]).2
          loaded := true }, .resolved (),
        [.resolvedProcess, .resolvedJob, .checkedCache, .synced,
          .hookExist]) :=
  (load_existence_branch freshJob sampleEnvExist
    { id := 1, name := "build" } { id := 1, process := 1, name := "compile" }
    [sampleRecord] rfl rfl rfl rfl rfl rfl rfl rfl rfl).1
    (by simp)

/-- C2: `load()` is idempotent — after a completed `load()`, a second
call performs no resolution, no sync, invokes no hook, and resolves
immediately with the state unchanged; across the two calls identity
resolution and the existence-branch hook each occur exactly once. -/
theorem load_idempotent (s : JobState) (env : Job.LoadEnv)
    (p : ProcessModel) (pj : ProcessJobModel) (b : Bool)
    (l : List ProcessCacheModel)
    (hl : s.loaded = false)
    (h1 : env.pmLoad = .ok ()) (h2 : env.machineLoad = .ok ())
    (h3 : env.createProcess = .ok p) (h4 : env.createJob = .ok pj)
    (hh : env.hasCache = .ok b) (hf : env.fullCache = .ok l)
    (he : env.onCacheExist = .ok ()) (hm : env.onCacheEmpty = .ok ()) :
    (Job.load s env).2.1 = .resolved ()
    ∧ (Job.load s env).1.loaded = true
    ∧ (∀ env2 : Job.LoadEnv,
        Job.load (Job.load s env).1 env2 = ((Job.load s env).1, .resolved (), []))
    ∧ (Job.load s env).2.2.count .resolvedProcess = 1
    ∧ (Job.load s env).2.2.count .hookExist
        + (Job.load s env).2.2.count .hookEmpty = 1 := by
  cases b with
  | true =>
    have hload : Job.load s env =
        ({ s with
            process := some p
            processJob := some pj
            cacheResults := (buildIndex l).1
            cacheTree := (buildIndex l).2
            loaded := true }, .resolved (),
          [.resolvedProcess, .resolvedJob, .checkedCache, .synced,
            .hookExist]) := by
      simp [Job.load, hl, h1, h2, h3, h4, hh, hf, he]
    rw [hload]
    refine ⟨rfl, rfl, ?_, by rfl, by rfl⟩
    intro env2
    simp [Job.load]
  | false =>
    have hload : Job.load s env =
        ({ s with process := some p, processJob := some pj, loaded := true },
          .resolved (),
          [.resolvedProcess, .resolvedJob, .checkedCache, .hookEmpty]) := by
      simp [Job.load, hl, h1, h2, h3, h4, hh, hm]
    rw [hload]
    refine ⟨rfl, rfl, ?_, by rfl, by rfl⟩
    intro env2
    simp [Job.load]

theorem load_idempotent_witness :
    (Job.load freshJob sampleEnvExist).2.1 = .resolved ()
    ∧ (Job.load freshJob sampleEnvExist).1.loaded = true
    ∧ (∀ env2 : Job.LoadEnv,
        Job.load (Job.load freshJob sampleEnvExist).1 env2 =
          ((Job.load freshJob sampleEnvExist).1, .resolved (), []))
    ∧ (Job.load freshJob sampleEnvExist).2.2.count .resolvedProcess = 1
    ∧ (Job.load freshJob sampleEnvExist).2.2.count .hookExist
        + (Job.load freshJob sampleEnvExist).2.2.count .hookEmpty = 1 :=
  load_idempotent freshJob sampleEnvExist
    { id := 1, name := "build" } { id := 1, process := 1, name := "compile" }
    true [sampleRecord] rfl rfl rfl rfl rfl rfl rfl rfl rfl

/-- C5: `syncCache()` first clears both maps (they are already cleared
when the fetch fails), then fetches the full record set, then appends
each record in fetch order to its key bucket (creating the bucket if
absent, preserving order within a bucket) and inserts it into the id
map; the resulting index holds exactly the fetched record set. -/
theorem syncCache_rebuilds_index (s : JobState) (l : List ProcessCacheModel)
    (hnd : (l.map (fun r => r.id)).Nodup) :
    Job.syncCache s .err =
      ({ s with cacheResults := [], cacheTree := [] }, .pending)
    ∧ (Job.syncCache s (.ok l)).2 = .resolved ()
    ∧ (∀ k, treeGet (Job.syncCache s (.ok l)).1.cacheTree k =
        if keyMatches k l = [] then none else some (keyMatches k l))
    ∧ (∀ i r, idGet (Job.syncCache s (.ok l)).1.cacheResults i = some r ↔
        r ∈ l ∧ r.id = i) := by
  refine ⟨rfl, rfl, ?_, ?_⟩
  · intro k
    show treeGet (buildIndex l).2 k = _
    exact treeGet_buildIndex l k
  · intro i r
    show idGet (buildIndex l).1 i = some r ↔ _
    exact idGet_buildIndex l hnd i r

theorem syncCache_rebuilds_index_witness :
    treeGet (Job.syncCache freshJob (.ok [sampleRecord])).1.cacheTree
        "artifact-hash" =
      if keyMatches "artifact-hash" [sampleRecord] = [] then none
      else some (keyMatches "artifact-hash" [sampleRecord]) :=
  (syncCache_rebuilds_index freshJob [sampleRecord] (by simp)).2.2.1
    "artifact-hash"

/-- C6: on an instance whose index is the one a sync over the store's
record set builds, `createCache` only extends the index — one append to
the key bucket and one insert into the id map, no rebuild — and the
resulting index is exactly the one a fresh sync over the store with the
new record appended would build. -/
theorem createCache_extends_index (s : JobState)
    (store : List ProcessCacheModel) (nr : ProcessCacheModel)
    (h1 : s.cacheResults = (buildIndex store).1)
    (h2 : s.cacheTree = (buildIndex store).2) :
    (Job.createCache s (.ok nr)).1.cacheResults = idPut s.cacheResults nr.id nr
    ∧ (Job.createCache s (.ok nr)).1.cacheTree = treePush s.cacheTree nr.key nr
    ∧ (Job.createCache s (.ok nr)).1.cacheResults
        = (buildIndex (store ++ [nr])).1
    ∧ (Job.createCache s (.ok nr)).1.cacheTree
        = (buildIndex (store ++ [nr])).2
    ∧ (Job.createCache s (.ok nr)).2 = .resolved nr := by
  refine ⟨rfl, rfl, ?_, ?_, rfl⟩
  · rw [buildIndex_append]
    show idPut s.cacheResults nr.id nr = _
    rw [h1]
    rfl
  · rw [buildIndex_append]
    show treePush s.cacheTree nr.key nr = _
    rw [h2]
    rfl

theorem createCache_extends_index_witness :
    (Job.createCache freshJob (.ok sampleRecord)).1.cacheResults
      = (buildIndex ([] ++ [sampleRecord])).1 :=
  (createCache_extends_index freshJob [] sampleRecord rfl rfl).2.2.1

/-- C7: cache keys are not unique — two `createCache` calls with the same
key on the same (process, job, machine) store two records with distinct
ids, and `getCache(key)` afterwards returns both, in creation order,
after whatever already matched the key. -/
theorem cache_keys_not_unique (st st1 st2 : CacheStore) (s0 : JobState)
    (pm : ProcessModel) (pj : ProcessJobModel) (k va vb : String)
    (ra rb : ProcessCacheModel)
    (hp : s0.process = some pm) (hj : s0.processJob = some pj)
    (hins1 : st.insert pm.id pj.id s0.machineName k va = (st1, ra))
    (hins2 : st1.insert pm.id pj.id s0.machineName k vb = (st2, rb)) :
    ra.id ≠ rb.id
    ∧ (Job.createCache s0 (.ok ra)).2 = .resolved ra
    ∧ (Job.createCache (Job.createCache s0 (.ok ra)).1 (.ok rb)).2
        = .resolved rb
    ∧ Job.getCache (Job.createCache (Job.createCache s0 (.ok ra)).1 (.ok rb)).1
        st2 k
      = .resolved (st.query pm.id pj.id s0.machineName k ++ [ra, rb]) := by
  simp only [CacheStore.insert, Prod.mk.injEq] at hins1 hins2
  obtain ⟨hst1, hra⟩ := hins1
  subst hst1
  subst hra
  obtain ⟨hst2, hrb⟩ := hins2
  subst hst2
  subst hrb
  refine ⟨?_, rfl, rfl, ?_⟩
  · show st.nextId ≠ st.nextId + 1
    omega
  · simp [Job.getCache, Job.createCache, Job.procId, Job.jobId, hp, hj,
      CacheStore.query, List.filter_append]

theorem cache_keys_not_unique_witness :
    (emptyStore.insert 1 1 "ci-1" "artifact-hash" "abc123").2.id ≠
      ((emptyStore.insert 1 1 "ci-1" "artifact-hash" "abc123").1.insert
        1 1 "ci-1" "artifact-hash" "def456").2.id :=
  (cache_keys_not_unique emptyStore
    (emptyStore.insert 1 1 "ci-1" "artifact-hash" "abc123").1
    ((emptyStore.insert 1 1 "ci-1" "artifact-hash" "abc123").1.insert
      1 1 "ci-1" "artifact-hash" "def456").1
    loadedJob { id := 1, name := "build" }
    { id := 1, process := 1, name := "compile" }
    "artifact-hash" "abc123" "def456"
    (emptyStore.insert 1 1 "ci-1" "artifact-hash" "abc123").2
    ((emptyStore.insert 1 1 "ci-1" "artifact-hash" "abc123").1.insert
      1 1 "ci-1" "artifact-hash" "def456").2
    rfl rfl rfl rfl).1

/-- C8: the storage layer does not auto-stamp `createdAt`/`updatedAt` —
the model is initialized with `timestamps := false`, so a record inserted
without the caller supplying them carries the declared default `0`
regardless of the current time, and a store-assigned record has
`createdAt = updatedAt = 0`. -/
theorem timestamps_not_auto_stamped (now : Int) (st : CacheStore)
    (proc job : Nat) (machine key value : String) :
    processCacheInitOptions.timestamps = false
    ∧ storedColumnValue processCacheInitOptions
        ProcessCacheAttributeDefinition.createdAt true now none
        = some (.int 0)
    ∧ storedColumnValue processCacheInitOptions
        ProcessCacheAttributeDefinition.updatedAt true now none
        = some (.int 0)
    ∧ (st.insert proc job machine key value).2.createdAt = 0
    ∧ (st.insert proc job machine key value).2.updatedAt = 0 :=
  ⟨rfl, rfl, rfl, rfl, rfl⟩

/-- C10: `createCache` is atomic with respect to the local index on
storage failure — a failing insert leaves the state untouched — and the
promise `createCache` returns has no rejection path at all. -/
theorem createCache_no_reject (s : JobState)
    (ins : CallResult ProcessCacheModel) :
    (ins = .err → Job.createCache s ins = (s, .pending))
    ∧ ∀ e : JobError, (Job.createCache s ins).2 ≠ .rejected e := by
  cases ins with
  | err =>
    refine ⟨fun _ => rfl, fun e h => ?_⟩
    exact absurd h (by simp [Job.createCache])
  | ok r =>
    refine ⟨fun h => absurd h (by simp), fun e h => ?_⟩
    exact absurd h (by simp [Job.createCache])

theorem createCache_no_reject_witness :
    Job.createCache freshJob .err = (freshJob, .pending)
    ∧ (Job.createCache freshJob .err).2 ≠ .rejected .invalidState :=
  ⟨(createCache_no_reject freshJob .err).1 rfl,
    (createCache_no_reject freshJob .err).2 .invalidState⟩

/-- Case analysis of `load()`: it either returns the state unchanged, or
stops early still unloaded with each identity either untouched or
assigned, or completes with the flag set and both identities assigned. -/
theorem load_state_shape (s : JobState) (env : Job.LoadEnv) :
    (Job.load s env).1 = s
    ∨ ((Job.load s env).1.loaded = false
        ∧ ((Job.load s env).1.process = s.process
            ∨ (Job.load s env).1.process.isSome)
        ∧ ((Job.load s env).1.processJob = s.processJob
            ∨ (Job.load s env).1.processJob.isSome))
    ∨ ((Job.load s env).1.loaded = true
        ∧ (Job.load s env).1.process.isSome
        ∧ (Job.load s env).1.processJob.isSome) := by
  by_cases hl : s.loaded
  · left
    simp [Job.load, hl]
  · have hl2 : s.loaded = false := by simpa using hl
    cases hpm : env.pmLoad with
    | err => left; simp [Job.load, hl2, hpm]
    | ok u =>
      cases hml : env.machineLoad with
      | err => left; simp [Job.load, hl2, hpm, hml]
      | ok u2 =>
        cases hcp : env.createProcess with
        | err => left; simp [Job.load, hl2, hpm, hml, hcp]
        | ok p =>
          cases hcj : env.createJob with
          | err =>
            right; left
            simp [Job.load, hl2, hpm, hml, hcp, hcj]
          | ok pj =>
            cases hhc : env.hasCache with
            | err =>
              right; left
              simp [Job.load, hl2, hpm, hml, hcp, hcj, hhc]
            | ok b =>
              cases b with
              | true =>
                cases hfc : env.fullCache with
                | err =>
                  right; left
                  simp [Job.load, hl2, hpm, hml, hcp, hcj, hhc, hfc]
                | ok l =>
                  cases hoe : env.onCacheExist with
                  | err =>
                    right; left
                    simp [Job.load, hl2, hpm, hml, hcp, hcj, hhc, hfc, hoe]
                  | ok u3 =>
                    right; right
                    simp [Job.load, hl2, hpm, hml, hcp, hcj, hhc, hfc, hoe]
              | false =>
                cases hoe : env.onCacheEmpty with
                | err =>
                  right; left
                  simp [Job.load, hl2, hpm, hml, hcp, hcj, hhc, hoe]
                | ok u3 =>
                  right; right
                  simp [Job.load, hl2, hpm, hml, hcp, hcj, hhc, hoe]

/-- Reachable states with the loaded flag set have both identities. -/
theorem reachable_loaded_identities (s : JobState) (hs : Job.Reachable s) :
    s.loaded = true → s.process.isSome ∧ s.processJob.isSome := by
  induction hs with
  | constructed pn jn mn =>
    intro h
    exact absurd h (by simp [Job.mkJob])
  | loadStep env hr ih =>
    rcases load_state_shape _ env with h | ⟨h, _, _⟩ | ⟨_, hp, hj⟩
    · rw [h]; exact ih
    · intro hq
      rw [h] at hq
      cases hq
    · intro _
      exact ⟨hp, hj⟩
  | syncStep f hr ih =>
    cases f with
    | err => simpa [Job.syncCache] using ih
    | ok l => simpa [Job.syncCache] using ih
  | createStep ins hr ih =>
    cases ins with
    | err => simpa [Job.createCache] using ih
    | ok r => simpa [Job.createCache] using ih

/-- C9: in every reachable state, whenever the loaded flag is true both
the resolved process and job identities are non-null — the flag is set
only after both assignments — and no operation resets an assigned
identity back to null. -/
theorem loaded_implies_identities (s : JobState) (hs : Job.Reachable s) :
    (s.loaded = true → s.process.isSome ∧ s.processJob.isSome)
    ∧ (∀ env, s.process.isSome → (Job.load s env).1.process.isSome)
    ∧ (∀ env, s.processJob.isSome → (Job.load s env).1.processJob.isSome)
    ∧ (∀ f, (Job.syncCache s f).1.process = s.process
        ∧ (Job.syncCache s f).1.processJob = s.processJob)
    ∧ (∀ ins, (Job.createCache s ins).1.process = s.process
        ∧ (Job.createCache s ins).1.processJob = s.processJob) := by
  refine ⟨reachable_loaded_identities s hs, ?_, ?_, ?_, ?_⟩
  · intro env hp
    rcases load_state_shape s env with h | ⟨_, hpr, _⟩ | ⟨_, hpr, _⟩
    · rw [h]; exact hp
    · rcases hpr with h2 | h2
      · rw [h2]; exact hp
      · exact h2
    · exact hpr
  · intro env hp
    rcases load_state_shape s env with h | ⟨_, _, hjr⟩ | ⟨_, _, hjr⟩
    · rw [h]; exact hp
    · rcases hjr with h2 | h2
      · rw [h2]; exact hp
      · exact h2
    · exact hjr
  · intro f
    cases f with
    | err => exact ⟨rfl, rfl⟩
    | ok l => exact ⟨rfl, rfl⟩
  · intro ins
    cases ins with
    | err => exact ⟨rfl, rfl⟩
    | ok r => exact ⟨rfl, rfl⟩

theorem loaded_implies_identities_witness :
    (Job.load (Job.mkJob "build" "compile" "ci-1") sampleEnvExist).1.process.isSome
    ∧ (Job.load (Job.mkJob "build" "compile" "ci-1")
        sampleEnvExist).1.processJob.isSome :=
  (loaded_implies_identities _
    (Job.Reachable.loadStep sampleEnvExist
      (Job.Reachable.constructed "build" "compile" "ci-1"))).1 (by rfl)

/-- C3 counterexample: on a freshly constructed, still-unloaded instance
every public cache/log operation proceeds — delegating with the null
identities — instead of failing fast with an InvalidState error. -/
theorem no_invalid_state_guard_counterexample :
    freshJob.loaded = false
    ∧ Job.createLog freshJob sampleLogger "msg" .Generic
        = .resolved { id := 1, process := 0, job := 0, message := "msg" }
    ∧ (Job.createCache freshJob (.ok sampleRecord)).2 = .resolved sampleRecord
    ∧ Job.getCache freshJob emptyStore "artifact-hash" = .resolved []
    ∧ Job.hasCacheKey freshJob emptyStore "artifact-hash" = .resolved false
    ∧ Job.hasCache freshJob emptyStore = .resolved false
    ∧ Job.getFullCache freshJob emptyStore = .resolved []
    ∧ Job.getCache freshJob emptyStore "artifact-hash"
        ≠ .rejected .invalidState := by
  refine ⟨rfl, rfl, rfl, rfl, rfl, rfl, rfl, ?_⟩
  intro h
  exact absurd h (by simp [Job.getCache])

/-- C3 amended: no public cache or log operation checks the loaded flag —
invoked before `load()` completes, each delegates unconditionally to the
machine collaborator with the current (possibly null) identities, and
none produces an InvalidState rejection of its own. -/
theorem public_ops_have_no_state_guard (s : JobState) (st : CacheStore)
    (machineCreateLog : Option ProcessModel → Option ProcessJobModel →
      String → ProcessLogTypes → PromiseOutcome ProcessJobLogModel)
    (msg : String) (lt : ProcessLogTypes) (k : String)
    (ins : CallResult ProcessCacheModel) :
    Job.createLog s machineCreateLog msg lt
        = machineCreateLog s.process s.processJob msg lt
    ∧ Job.getCache s st k
        = .resolved (st.query (Job.procId s.process) (Job.jobId s.processJob)
            s.machineName k)
    ∧ Job.hasCacheKey s st k
        = .resolved (st.existsKey (Job.procId s.process)
            (Job.jobId s.processJob) s.machineName k)
    ∧ Job.hasCache s st
        = .resolved (st.existsAny (Job.procId s.process)
            (Job.jobId s.processJob) s.machineName)
    ∧ Job.getFullCache s st
        = .resolved (st.fetchAll (Job.procId s.process)
            (Job.jobId s.processJob) s.machineName)
    ∧ (∀ e : JobError, (Job.createCache s ins).2 ≠ .rejected e) := by
  refine ⟨rfl, rfl, rfl, rfl, rfl, ?_⟩
  intro e h
  cases ins with
  | err => exact absurd h (by simp [Job.createCache])
  | ok r => exact absurd h (by simp [Job.createCache])

/-- C4 counterexample: with the job-identity resolution failing, `load()`
on a fresh instance retains a resolved process with no job (partial
state), stays unloaded, and its promise never settles, so the error is
not surfaced to the caller. -/
theorem load_failure_counterexample :
    (Job.load freshJob failingJobEnv).1.process
        = some { id := 1, name := "build" }
    ∧ (Job.load freshJob failingJobEnv).1.processJob = none
    ∧ (Job.load freshJob failingJobEnv).1.loaded = false
    ∧ (Job.load freshJob failingJobEnv).2.1 = .pending :=
  ⟨rfl, rfl, rfl, rfl⟩

/-- C4 amended: when a collaborator call fails during `load()` the
controller is left unloaded, so a retry remains possible, but the error
is not surfaced to the caller — the promise never settles, and it has no
rejection path: every `load()` either completes (flag set) or stays
pending with the flag still false. -/
theorem load_failure_leaves_unloaded (s : JobState) (env : Job.LoadEnv)
    (hl : s.loaded = false) :
    ((Job.load s env).2.1 = .resolved () ∧ (Job.load s env).1.loaded = true)
    ∨ ((Job.load s env).2.1 = .pending
        ∧ (Job.load s env).1.loaded = false) := by
  cases hpm : env.pmLoad with
  | err => right; exact ⟨by simp [Job.load, hl, hpm], by simp [Job.load, hl, hpm]⟩
  | ok u =>
    cases hml : env.machineLoad with
    | err =>
      right
      exact ⟨by simp [Job.load, hl, hpm, hml], by simp [Job.load, hl, hpm, hml]⟩
    | ok u2 =>
      cases hcp : env.createProcess with
      | err =>
        right
        exact ⟨by simp [Job.load, hl, hpm, hml, hcp],
          by simp [Job.load, hl, hpm, hml, hcp]⟩
      | ok p =>
        cases hcj : env.createJob with
        | err =>
          right
          exact ⟨by simp [Job.load, hl, hpm, hml, hcp, hcj],
            by simp [Job.load, hl, hpm, hml, hcp, hcj]⟩
        | ok pj =>
          cases hhc : env.hasCache with
          | err =>
            right
            exact ⟨by simp [Job.load, hl, hpm, hml, hcp, hcj, hhc],
              by simp [Job.load, hl, hpm, hml, hcp, hcj, hhc]⟩
          | ok b =>
            cases b with
            | true =>
              cases hfc : env.fullCache with
              | err =>
                right
                exact ⟨by simp [Job.load, hl, hpm, hml, hcp, hcj, hhc, hfc],
                  by simp [Job.load, hl, hpm, hml, hcp, hcj, hhc, hfc]⟩
              | ok l =>
                cases hoe : env.onCacheExist with
                | err =>
                  right
                  exact ⟨by simp [Job.load, hl, hpm, hml, hcp, hcj, hhc, hfc, hoe],
                    by simp [Job.load, hl, hpm, hml, hcp, hcj, hhc, hfc, hoe]⟩
                | ok u3 =>
                  left
                  exact ⟨by simp [Job.load, hl, hpm, hml, hcp, hcj, hhc, hfc, hoe],
                    by simp [Job.load, hl, hpm, hml, hcp, hcj, hhc, hfc, hoe]⟩
            | false =>
              cases hoe : env.onCacheEmpty with
              | err =>
                right
                exact ⟨by simp [Job.load, hl, hpm, hml, hcp, hcj, hhc, hoe],
                  by simp [Job.load, hl, hpm, hml, hcp, hcj, hhc, hoe]⟩
              | ok u3 =>
                left
                exact ⟨by simp [Job.load, hl, hpm, hml, hcp, hcj, hhc, hoe],
                  by simp [Job.load, hl, hpm, hml, hcp, hcj, hhc, hoe]⟩

theorem load_failure_leaves_unloaded_witness :
    ((Job.load freshJob failingJobEnv).2.1 = .resolved ()
      ∧ (Job.load freshJob failingJobEnv).1.loaded = true)
    ∨ ((Job.load freshJob failingJobEnv).2.1 = .pending
        ∧ (Job.load freshJob failingJobEnv).1.loaded = false) :=
  load_failure_leaves_unloaded freshJob failingJobEnv rfl
